import Mathlib

/-!
# Verification of the carbon-footprint simulation engine

A shallow embedding of `streamlit_app.py` of App-Carbono: the simulation
function `simular_huella_carbono`, the scenario adjustment and the multi-run
aggregation loop that the presentation layer triggers with the *Simular*
button.

Modelling choices:

* The global pseudo-random generator (`random`) is modelled as the infinite
  stream of unit-interval draws it will produce (`RNG`); `random.uniform(a, b)`
  consumes one draw `u` and yields `a + (b - a) * u`.  `random.seed(s)` is an
  abstract function `seedFn : ℕ → RNG` fixing the stream the generator
  produces after being seeded with `s`; all theorems are parametric in it.
  Seeds are naturals because the UI widget enforces `seed ≥ 0`.
* Real arithmetic is exact rational arithmetic; Python's `round(x, n)` is
  `roundTo n`, rounding half up on rationals.
* `pd.concat` on an empty list raises; the aggregation therefore returns
  `Except String` with the error of `pd.concat([])`.
-/

namespace AppCarbono

/-- The state of the global random generator: the stream of unit-interval
draws it will produce next. -/
abbrev RNG := ℕ → ℚ

/-- `random.uniform a b`: consume one unit draw `u`, return `a + (b - a) * u`. -/
def uniform (a b : ℚ) (g : RNG) : ℚ × RNG :=
  (a + (b - a) * g 0, fun n => g (n + 1))

/-- Python's `round(q, n)` on exact rationals (round half up). -/
def roundTo (n : ℕ) (q : ℚ) : ℚ := ((round (q * 10 ^ n) : ℤ) : ℚ) / 10 ^ n

/-- The four activities in the order of the source's `actividades` list
(line 11): Transporte = Transport, Energía = Energy, Residuos = Waste,
Agua = Water. -/
inductive Actividad
  | transporte
  | energia
  | residuos
  | agua
deriving DecidableEq

/-- Impact categories (Bajo = Low, Medio = Medium, Alto = High). -/
inductive Categoria
  | bajo
  | medio
  | alto
deriving DecidableEq

/-- Emission sampling interval per activity (lines 20-31). -/
def rangoEmision : Actividad → ℚ × ℚ
  | .transporte => (30, 100)
  | .energia => (50, 150)
  | .residuos => (10, 60)
  | .agua => (5, 30)

/-- Reduction-potential sampling interval per activity (lines 20-31). -/
def rangoReduccion : Actividad → ℚ × ℚ
  | .transporte => (20, 40)
  | .energia => (30, 60)
  | .residuos => (10, 40)
  | .agua => (5, 20)

/-- The classifier of lines 35-40. -/
def clasificar (emision : ℚ) : Categoria :=
  if emision < 40 then .bajo
  else if emision ≤ 90 then .medio
  else .alto

/-- One row of the simulated table (columns of the DataFrame, lines 48-54). -/
structure Fila where
  actividad : Actividad
  emisiones : ℚ
  reduccion : ℚ
  costo : ℚ
  categoria : Categoria
deriving DecidableEq

/-- One iteration of the inner day loop (lines 20-46): draw emission and
reduction, derive cost and category from the *unrounded* emission, store the
rounded values. -/
def generarFila (a : Actividad) (g : RNG) : Fila × RNG :=
  let e := uniform (rangoEmision a).1 (rangoEmision a).2 g
  let r := uniform (rangoReduccion a).1 (rangoReduccion a).2 e.2
  ({ actividad := a
     emisiones := roundTo 3 e.1
     reduccion := roundTo 2 r.1
     costo := roundTo 2 (e.1 * 15)
     categoria := clasificar e.1 }, r.2)

/-- The `for i in range(dias)` loop for one activity (line 19). -/
def generarDias (a : Actividad) : ℕ → RNG → List Fila × RNG
  | 0, g => ([], g)
  | n + 1, g =>
    let f := generarFila a g
    let rest := generarDias a n f.2
    (f.1 :: rest.1, rest.2)

/-- The source's `actividades` list (line 11), in order. -/
def actividades : List Actividad := [.transporte, .energia, .residuos, .agua]

/-- The outer activity loop (line 18). -/
def generarTodas : List Actividad → ℕ → RNG → List Fila × RNG
  | [], _, g => ([], g)
  | a :: rest, dias, g =>
    let fs := generarDias a dias g
    let more := generarTodas rest dias fs.2
    (fs.1 ++ more.1, more.2)

/-- `simular_huella_carbono(dias, seed)` (lines 8-55): reseed the global
generator when `seed` is given and non-zero, then generate the table. -/
def simular_huella_carbono (seedFn : ℕ → RNG) (dias : ℕ) (seed : Option ℕ) (g : RNG) :
    List Fila × RNG :=
  let g0 := match seed with
    | some s => if s ≠ 0 then seedFn s else g
    | none => g
  generarTodas actividades dias g0

/-- The three scenarios of the selectbox (line 75): Base = Baseline,
moderadas = ModeratePolicy, fuertes = StrongPolicy. -/
inductive Escenario
  | base
  | moderadas
  | fuertes
deriving DecidableEq

/-- The scenario adjustment (lines 90-95): rescale the emission column and
recompute the cost column from the *new* emission, without rounding. -/
def ajustarFila (esc : Escenario) (f : Fila) : Fila :=
  match esc with
  | .base => f
  | .moderadas =>
      { f with emisiones := f.emisiones * (85 / 100)
               costo := f.emisiones * (85 / 100) * 15 }
  | .fuertes =>
      { f with emisiones := f.emisiones * (65 / 100)
               costo := f.emisiones * (65 / 100) * 15 }

/-- A row of the aggregated dataset: a simulated row plus the `Corrida`
(run index) column added on line 96. -/
structure FilaCorrida extends Fila where
  corrida : ℕ
deriving DecidableEq

/-- Body of the aggregation loop (lines 86-97) at loop counter `run`:
derive this run's seed, simulate, apply the scenario, tag with `run + 1`. -/
def corridaRows (seedFn : ℕ → RNG) (seed dias : ℕ) (esc : Escenario) (run : ℕ)
    (g : RNG) : List FilaCorrida × RNG :=
  let s : Option ℕ := if seed ≠ 0 then some (seed + run) else none
  let df := simular_huella_carbono seedFn dias s g
  ((df.1.map (ajustarFila esc)).map fun f => { toFila := f, corrida := run + 1 }, df.2)

/-- The loop `for run in range(num_corridas)` (line 86), producing the list
`lista_dfs` of per-run tables; `n` runs remain and the loop counter is `run`. -/
def corridas (seedFn : ℕ → RNG) (seed dias : ℕ) (esc : Escenario) :
    ℕ → ℕ → RNG → List (List FilaCorrida) × RNG
  | 0, _, g => ([], g)
  | n + 1, run, g =>
    let df := corridaRows seedFn seed dias esc run g
    let rest := corridas seedFn seed dias esc n (run + 1) df.2
    (df.1 :: rest.1, rest.2)

/-- The module-level aggregation (lines 83-99): run the loop, then
`pd.concat(lista_dfs)`, which raises `ValueError` on an empty list. -/
def agregar (seedFn : ℕ → RNG) (seed dias numCorridas : ℕ) (esc : Escenario)
    (g : RNG) : Except String (List FilaCorrida) :=
  let dfs := (corridas seedFn seed dias esc numCorridas 0 g).1
  if dfs.isEmpty then .error "No objects to concatenate"
  else .ok dfs.flatten

/-- A stream is a unit stream when every draw lies in `[0, 1)`, as
`random.random()` guarantees. -/
def UnitStream (g : RNG) : Prop := ∀ n, 0 ≤ g n ∧ g n < 1

/-- The constant stream, used for concrete instances. -/
def constRNG (u : ℚ) : RNG := fun _ => u

/-! ## Basic facts about rounding -/

theorem round_mono_rat {x y : ℚ} (h : x ≤ y) : round x ≤ round y := by
  rw [round_eq, round_eq]
  exact Int.floor_le_floor (by linarith)

theorem roundTo_mono (n : ℕ) {x y : ℚ} (h : x ≤ y) : roundTo n x ≤ roundTo n y := by
  unfold roundTo
  have hp : (0 : ℚ) < 10 ^ n := by positivity
  have := round_mono_rat (mul_le_mul_of_nonneg_right h (le_of_lt hp))
  exact div_le_div_of_nonneg_right (by exact_mod_cast this) hp.le

theorem roundTo_intCast (n : ℕ) (z : ℤ) : roundTo n ((z : ℤ) : ℚ) = z := by
  unfold roundTo
  have hp : (0 : ℚ) < 10 ^ n := by positivity
  have h1 : ((z : ℚ) * 10 ^ n) = ((z * 10 ^ n : ℤ) : ℚ) := by push_cast; ring
  rw [h1, round_intCast]
  push_cast
  field_simp

theorem le_roundTo {n : ℕ} {z : ℤ} {x : ℚ} (h : (z : ℚ) ≤ x) : (z : ℚ) ≤ roundTo n x := by
  have := roundTo_mono n h
  rwa [roundTo_intCast] at this

theorem roundTo_le {n : ℕ} {z : ℤ} {x : ℚ} (h : x ≤ (z : ℚ)) : roundTo n x ≤ (z : ℚ) := by
  have := roundTo_mono n h
  rwa [roundTo_intCast] at this

/-! ## Structure of the generation loops -/

theorem uniform_snd (a b : ℚ) (g : RNG) : (uniform a b g).2 = fun n => g (n + 1) := rfl

theorem UnitStream.tail {g : RNG} (hg : UnitStream g) : UnitStream (fun n => g (n + 1)) :=
  fun n => hg (n + 1)

theorem generarFila_snd (a : Actividad) (g : RNG) :
    (generarFila a g).2 = fun n => g (n + 2) := rfl

theorem UnitStream.generarFila {g : RNG} (hg : UnitStream g) (a : Actividad) :
    UnitStream (generarFila a g).2 := fun n => hg (n + 2)

theorem generarDias_snd_unit {g : RNG} (hg : UnitStream g) (a : Actividad) (n : ℕ) :
    UnitStream (generarDias a n g).2 := by
  induction n generalizing g with
  | zero => exact hg
  | succ m ih => exact ih (hg.generarFila a)

theorem generarDias_length (a : Actividad) (n : ℕ) (g : RNG) :
    ((generarDias a n g).1).length = n := by
  induction n generalizing g with
  | zero => rfl
  | succ m ih => simp [generarDias, ih]

theorem generarDias_map_actividad (a : Actividad) (n : ℕ) (g : RNG) :
    ((generarDias a n g).1).map Fila.actividad = List.replicate n a := by
  induction n generalizing g with
  | zero => rfl
  | succ m ih => simp [generarDias, ih, generarFila, List.replicate_succ]

theorem mem_generarDias {a : Actividad} {n : ℕ} {g : RNG} {f : Fila}
    (hg : UnitStream g) (hf : f ∈ (generarDias a n g).1) :
    ∃ g', UnitStream g' ∧ f = (generarFila a g').1 := by
  induction n generalizing g with
  | zero => simp [generarDias] at hf
  | succ m ih =>
    simp only [generarDias, List.mem_cons] at hf
    rcases hf with hf | hf
    · exact ⟨g, hg, hf⟩
    · exact ih (hg.generarFila a) hf

theorem generarTodas_snd_unit {g : RNG} (hg : UnitStream g) (l : List Actividad)
    (dias : ℕ) : UnitStream (generarTodas l dias g).2 := by
  induction l generalizing g with
  | nil => exact hg
  | cons a rest ih => exact ih (generarDias_snd_unit hg a dias)

theorem generarTodas_length (l : List Actividad) (dias : ℕ) (g : RNG) :
    ((generarTodas l dias g).1).length = l.length * dias := by
  induction l generalizing g with
  | nil => simp [generarTodas]
  | cons a rest ih =>
    simp [generarTodas, generarDias_length, ih, Nat.succ_mul, Nat.add_comm]

theorem generarTodas_map_actividad (l : List Actividad) (dias : ℕ) (g : RNG) :
    ((generarTodas l dias g).1).map Fila.actividad
      = l.flatMap (fun a => List.replicate dias a) := by
  induction l generalizing g with
  | nil => rfl
  | cons a rest ih =>
    simp [generarTodas, generarDias_map_actividad, ih]

theorem mem_generarTodas {l : List Actividad} {dias : ℕ} {g : RNG} {f : Fila}
    (hg : UnitStream g) (hf : f ∈ (generarTodas l dias g).1) :
    ∃ a ∈ l, ∃ g', UnitStream g' ∧ f = (generarFila a g').1 := by
  induction l generalizing g with
  | nil => simp [generarTodas] at hf
  | cons a rest ih =>
    simp only [generarTodas, List.mem_append] at hf
    rcases hf with hf | hf
    · obtain ⟨g', hu, he⟩ := mem_generarDias hg hf
      exact ⟨a, List.mem_cons_self a rest, g', hu, he⟩
    · obtain ⟨b, hb, g', hu, he⟩ := ih (generarDias_snd_unit hg a dias) hf
      exact ⟨b, List.mem_cons_of_mem a hb, g', hu, he⟩

/-! ## Structure of the aggregation loop -/

theorem simular_seeded (seedFn : ℕ → RNG) (dias : ℕ) {s : ℕ} (hs : s ≠ 0) (g : RNG) :
    simular_huella_carbono seedFn dias (some s) g = generarTodas actividades dias (seedFn s) := by
  simp [simular_huella_carbono, hs]

theorem simular_fst_length (seedFn : ℕ → RNG) (dias : ℕ) (sd : Option ℕ) (g : RNG) :
    ((simular_huella_carbono seedFn dias sd g).1).length = 4 * dias := by
  unfold simular_huella_carbono
  cases sd with
  | none => exact generarTodas_length actividades dias g
  | some s =>
    by_cases hs : s = 0 <;> simp [hs] <;> exact generarTodas_length actividades dias _

theorem corridas_length (seedFn : ℕ → RNG) (seed dias : ℕ) (esc : Escenario)
    (n run : ℕ) (g : RNG) : ((corridas seedFn seed dias esc n run g).1).length = n := by
  induction n generalizing run g with
  | zero => rfl
  | succ m ih => simp [corridas, ih]

theorem corridaRows_fst_length (seedFn : ℕ → RNG) (seed dias : ℕ) (esc : Escenario)
    (run : ℕ) (g : RNG) : ((corridaRows seedFn seed dias esc run g).1).length = 4 * dias := by
  unfold corridaRows
  simp [simular_fst_length]

theorem corridaRows_map_corrida (seedFn : ℕ → RNG) (seed dias : ℕ) (esc : Escenario)
    (run : ℕ) (g : RNG) :
    ((corridaRows seedFn seed dias esc run g).1).map FilaCorrida.corrida
      = List.replicate (4 * dias) (run + 1) := by
  unfold corridaRows
  simp only [List.map_map]
  rw [List.map_eq_replicate_iff.mpr, simular_fst_length]
  intro x _
  rfl

theorem corridas_flatten_map_corrida (seedFn : ℕ → RNG) (seed dias : ℕ)
    (esc : Escenario) (n run : ℕ) (g : RNG) :
    (((corridas seedFn seed dias esc n run g).1).flatten).map FilaCorrida.corrida
      = (List.range n).flatMap (fun i => List.replicate (4 * dias) (run + i + 1)) := by
  induction n generalizing run g with
  | zero => rfl
  | succ m ih =>
    rw [List.range_succ_eq_map]
    simp only [corridas, List.flatten_cons, List.map_append,
      corridaRows_map_corrida, ih, List.flatMap_cons, List.flatMap_map]
    have harith : (fun i => List.replicate (4 * dias) (run + Nat.succ i + 1))
        = fun i => List.replicate (4 * dias) (run + 1 + i + 1) := by
      funext i
      congr 1
      omega
    simp [Function.comp_def, harith]

theorem agregar_eq_ok (seedFn : ℕ → RNG) (seed dias n : ℕ) (esc : Escenario)
    (g : RNG) (h : 1 ≤ n) :
    agregar seedFn seed dias n esc g
      = .ok ((corridas seedFn seed dias esc n 0 g).1).flatten := by
  unfold agregar
  have hl := corridas_length seedFn seed dias esc n 0 g
  cases hc : (corridas seedFn seed dias esc n 0 g).1 with
  | nil => rw [hc] at hl; simp at hl; omega
  | cons a t => simp [hc]

theorem agregar_error_iff (seedFn : ℕ → RNG) (seed dias n : ℕ) (esc : Escenario)
    (g : RNG) : (∃ msg, agregar seedFn seed dias n esc g = .error msg) ↔ n = 0 := by
  constructor
  · intro ⟨msg, hmsg⟩
    by_contra hn
    rw [agregar_eq_ok seedFn seed dias n esc g (Nat.one_le_iff_ne_zero.mpr hn)] at hmsg
    exact Except.noConfusion hmsg
  · intro hn
    subst hn
    exact ⟨"No objects to concatenate", rfl⟩

theorem mem_corridas_flatten {seedFn : ℕ → RNG} {seed dias : ℕ} {esc : Escenario}
    {n run : ℕ} {g : RNG} {f : FilaCorrida}
    (hf : f ∈ ((corridas seedFn seed dias esc n run g).1).flatten) :
    ∃ f₀ k, f = { toFila := ajustarFila esc f₀, corrida := k } := by
  induction n generalizing run g with
  | zero => simp [corridas] at hf
  | succ m ih =>
    simp only [corridas, List.flatten_cons, List.mem_append] at hf
    rcases hf with hf | hf
    · simp only [corridaRows, List.mem_map] at hf
      obtain ⟨f₁, ⟨f₀, _, he₀⟩, he⟩ := hf
      exact ⟨f₀, run + 1, by rw [← he, ← he₀]⟩
    · exact ih hf

/-- The table the loop body produces at loop counter `k` when the base seed is
non-zero: generation is fully determined by `seedFn (seed + k)`. -/
def bloque (seedFn : ℕ → RNG) (seed dias : ℕ) (esc : Escenario) (k : ℕ) :
    List FilaCorrida :=
  (((generarTodas actividades dias (seedFn (seed + k))).1.map (ajustarFila esc)).map
    fun f => { toFila := f, corrida := k + 1 })

theorem corridaRows_seeded (seedFn : ℕ → RNG) {seed : ℕ} (dias : ℕ) (esc : Escenario)
    (run : ℕ) (g : RNG) (hs : seed ≠ 0) :
    (corridaRows seedFn seed dias esc run g).1 = bloque seedFn seed dias esc run := by
  unfold corridaRows bloque
  have hnz : seed + run ≠ 0 := by omega
  simp [hs, simular_seeded seedFn dias hnz]

theorem corridas_seeded (seedFn : ℕ → RNG) {seed : ℕ} (dias : ℕ) (esc : Escenario)
    (n run : ℕ) (g : RNG) (hs : seed ≠ 0) :
    (corridas seedFn seed dias esc n run g).1
      = (List.range n).map (fun i => bloque seedFn seed dias esc (run + i)) := by
  induction n generalizing run g with
  | zero => rfl
  | succ m ih =>
    rw [List.range_succ_eq_map]
    simp only [corridas, corridaRows_seeded seedFn dias esc run _ hs, ih,
      List.map_cons, List.map_map, Nat.add_zero]
    congr 1
    apply List.map_congr_left
    intro i _
    simp only [Function.comp_def]
    congr 1
    omega

theorem simular_map_actividad (seedFn : ℕ → RNG) (dias : ℕ) (sd : Option ℕ) (g : RNG) :
    ((simular_huella_carbono seedFn dias sd g).1).map Fila.actividad
      = actividades.flatMap (fun a => List.replicate dias a) := by
  unfold simular_huella_carbono
  exact generarTodas_map_actividad actividades dias _

theorem corridas_flatten_length (seedFn : ℕ → RNG) (seed dias : ℕ) (esc : Escenario)
    (n run : ℕ) (g : RNG) :
    (((corridas seedFn seed dias esc n run g).1).flatten).length = n * (4 * dias) := by
  induction n generalizing run g with
  | zero => simp [corridas]
  | succ m ih =>
    simp only [corridas, List.flatten_cons, List.length_append,
      corridaRows_fst_length, ih]
    ring

/-! ## The claims -/

/-- **C4.** Determinism: for every non-zero base seed, positive days, positive
number of runs and scenario, two invocations of the full aggregation with
identical parameters produce identical datasets — the result does not depend
on the generator state inherited from before the call, because every run
reseeds with `seed + run`. -/
theorem c4_determinism (seedFn : ℕ → RNG) (seed dias n : ℕ) (esc : Escenario)
    (g₁ g₂ : RNG) (hseed : seed ≠ 0) (hd : 1 ≤ dias) (hn : 1 ≤ n) :
    agregar seedFn seed dias n esc g₁ = agregar seedFn seed dias n esc g₂ := by
  unfold agregar
  rw [corridas_seeded seedFn dias esc n 0 g₁ hseed,
    corridas_seeded seedFn dias esc n 0 g₂ hseed]

/-- Witness for C4 at seed 1, one day, one run. -/
theorem c4_witness :
    agregar (fun _ => constRNG 0) 1 1 1 Escenario.base (constRNG 0)
      = agregar (fun _ => constRNG 0) 1 1 1 Escenario.base (constRNG (1 / 2)) :=
  c4_determinism (fun _ => constRNG 0) 1 1 1 Escenario.base (constRNG 0)
    (constRNG (1 / 2)) (by decide) (by decide) (by decide)

/-- **C5.** For every positive `dias` and a single run, the generated table
has exactly `4 * dias` rows, each of the four activities appears in exactly
`dias` rows, and rows are ordered activity-major (Transporte, Energía,
Residuos, Agua), day-minor. -/
theorem c5_single_run_shape (seedFn : ℕ → RNG) (dias : ℕ) (sd : Option ℕ)
    (g : RNG) (hd : 1 ≤ dias) :
    ((simular_huella_carbono seedFn dias sd g).1).length = 4 * dias ∧
    (∀ a : Actividad,
      ((simular_huella_carbono seedFn dias sd g).1).countP (fun f => decide (f.actividad = a))
        = dias) ∧
    ((simular_huella_carbono seedFn dias sd g).1).map Fila.actividad
      = actividades.flatMap (fun a => List.replicate dias a) := by
  refine ⟨simular_fst_length seedFn dias sd g, ?_, simular_map_actividad seedFn dias sd g⟩
  intro a
  have hcnt : ((simular_huella_carbono seedFn dias sd g).1).countP (fun f => decide (f.actividad = a))
      = (((simular_huella_carbono seedFn dias sd g).1).map Fila.actividad).countP
          (fun x => decide (x = a)) := by
    rw [List.countP_map]
    rfl
  rw [hcnt, simular_map_actividad seedFn dias sd g]
  cases a <;>
    simp [actividades, List.countP_append, List.countP_replicate]

/-- Witness for C5 at three days. -/
theorem c5_witness :
    ((simular_huella_carbono (fun _ => constRNG 0) 3 none (constRNG 0)).1).length = 4 * 3 ∧
    (∀ a : Actividad,
      ((simular_huella_carbono (fun _ => constRNG 0) 3 none (constRNG 0)).1).countP
        (fun f => decide (f.actividad = a)) = 3) ∧
    ((simular_huella_carbono (fun _ => constRNG 0) 3 none (constRNG 0)).1).map Fila.actividad
      = actividades.flatMap (fun a => List.replicate 3 a) :=
  c5_single_run_shape (fun _ => constRNG 0) 3 none (constRNG 0) (by decide)

/-- **C6.** Scenario scaling on a baseline table `D`: `base` leaves every row
unchanged, `moderadas` rescales every emission to `0.85` times the matching
row of `D`, `fuertes` to `0.65` times. -/
theorem c6_scenario_scaling (D : List Fila) :
    D.map (ajustarFila Escenario.base) = D ∧
    (D.map (ajustarFila Escenario.moderadas)).map Fila.emisiones
      = D.map (fun f => (85 / 100) * f.emisiones) ∧
    (D.map (ajustarFila Escenario.fuertes)).map Fila.emisiones
      = D.map (fun f => (65 / 100) * f.emisiones) := by
  refine ⟨?_, ?_, ?_⟩
  · exact List.map_id' D
  · rw [List.map_map]
    apply List.map_congr_left
    intro f _
    simp [ajustarFila, mul_comm]
  · rw [List.map_map]
    apply List.map_congr_left
    intro f _
    simp [ajustarFila, mul_comm]

/-- **C7.** In every aggregation of `n ≥ 1` runs the `Corrida` column reads,
in order, `4 * dias` copies of `1`, then of `2`, …, then of `n`: run indices
are dense, 1-based and contiguous, rows of run 1 come first, and the total
row count is `n * (4 * dias)` (so 3 runs of 10 days give 120 rows, 40 per
run index). -/
theorem c7_run_index (seedFn : ℕ → RNG) (seed dias n : ℕ) (esc : Escenario)
    (g : RNG) (hn : 1 ≤ n) :
    ∃ rows, agregar seedFn seed dias n esc g = .ok rows ∧
      rows.map FilaCorrida.corrida
        = (List.range n).flatMap (fun r => List.replicate (4 * dias) (r + 1)) ∧
      rows.length = n * (4 * dias) := by
  refine ⟨_, agregar_eq_ok seedFn seed dias n esc g hn, ?_, ?_⟩
  · have := corridas_flatten_map_corrida seedFn seed dias esc n 0 g
    simpa using this
  · exact corridas_flatten_length seedFn seed dias esc n 0 g

/-- Witness for C7 at `num_runs = 3`, `days = 10`: 3 run indices, 120 rows. -/
theorem c7_witness :
    ∃ rows, agregar (fun _ => constRNG 0) 1 10 3 Escenario.base (constRNG 0)
        = .ok rows ∧
      rows.map FilaCorrida.corrida
        = (List.range 3).flatMap (fun r => List.replicate (4 * 10) (r + 1)) ∧
      rows.length = 3 * (4 * 10) :=
  c7_run_index (fun _ => constRNG 0) 1 10 3 Escenario.base (constRNG 0) (by decide)

/-- **C9.** Frame effect of the scenario adjustment: only the emission and
cost columns change; activity, reduction potential and impact category are
identical before and after, for every scenario. -/
theorem c9_scenario_frame (esc : Escenario) (D : List Fila) :
    (D.map (ajustarFila esc)).map Fila.actividad = D.map Fila.actividad ∧
    (D.map (ajustarFila esc)).map Fila.reduccion = D.map Fila.reduccion ∧
    (D.map (ajustarFila esc)).map Fila.categoria = D.map Fila.categoria := by
  refine ⟨?_, ?_, ?_⟩ <;>
    · rw [List.map_map]
      apply List.map_congr_left
      intro f _
      cases esc <;> rfl

/-- **C2, counterexample.** The claim says the aggregation fails (with an
invalid-parameter error, before simulating) whenever `days < 1`.  The code
has no such validation: with `days = 0` and one run the aggregation succeeds
and returns an empty dataset. -/
theorem c2_counterexample :
    agregar (fun _ => constRNG 0) 1 0 1 Escenario.base (constRNG 0)
      = .ok ([] : List FilaCorrida) := rfl

/-- **C2, amended.** The aggregation fails exactly when `num_runs < 1` (the
error is `pd.concat`'s on an empty list of tables, raised after the loop,
not an up-front parameter check); `days < 1` is not rejected — the
aggregation then succeeds with an empty dataset. -/
theorem c2_amended (seedFn : ℕ → RNG) (seed dias n : ℕ) (esc : Escenario)
    (g : RNG) :
    ((∃ msg, agregar seedFn seed dias n esc g = .error msg) ↔ n < 1) ∧
    (dias < 1 → 1 ≤ n → agregar seedFn seed dias n esc g = .ok []) := by
  constructor
  · rw [agregar_error_iff]
    omega
  · intro hd hn
    rw [agregar_eq_ok seedFn seed dias n esc g hn]
    have h0 : dias = 0 := by omega
    subst h0
    have hlen := corridas_flatten_length seedFn seed 0 esc n 0 g
    rw [List.eq_nil_of_length_eq_zero (by omega : (((corridas seedFn seed 0 esc n 0 g).1).flatten).length = 0)]

/-- Witness for C2 (amended) at `days = 0`, two runs. -/
theorem c2_witness :
    agregar (fun _ => constRNG 0) 1 0 2 Escenario.base (constRNG 0)
      = .ok ([] : List FilaCorrida) :=
  (c2_amended (fun _ => constRNG 0) 1 0 2 Escenario.base (constRNG 0)).2
    (by decide) (by decide)

/-- **C1, counterexample.** The claim says every row of the aggregated
dataset satisfies `costo = roundTo 2 (emisiones * 15)`.  Under the moderate
scenario with a draw of `u = 1/70000` the Transporte row stores
`emisiones = 30.001 * 0.85 = 25.50085` and `costo = 25.50085 * 15 =
382.51275`, which is not rounded to 2 decimals (`roundTo 2` gives
`382.51`). -/
theorem c1_counterexample :
    ¬ ∀ f ∈ ((agregar (fun _ => constRNG (1 / 70000)) 1 1 1 Escenario.moderadas
        (constRNG 0)).toOption.getD []),
      f.costo = roundTo 2 (f.emisiones * 15) := by
  intro h
  norm_num [agregar, corridas, corridaRows, simular_huella_carbono, generarTodas, generarDias,
    generarFila, uniform, actividades, ajustarFila, constRNG, rangoEmision,
    rangoReduccion, clasificar, roundTo, round_eq, Except.toOption] at h

/-- **C1, amended.** After a `moderadas` or `fuertes` scenario adjustment the
stored cost is recomputed from the new emission but *not* rounded: every row
of the aggregated dataset satisfies `costo = emisiones * 15` exactly (under
`base` the cost column keeps `round(raw_emission * 15, 2)` computed from the
unrounded draw, which can differ from `roundTo 2 (emisiones * 15)` by one
cent). -/
theorem c1_amended (seedFn : ℕ → RNG) (seed dias n : ℕ) (esc : Escenario)
    (g : RNG) (rows : List FilaCorrida)
    (hesc : esc = Escenario.moderadas ∨ esc = Escenario.fuertes)
    (hok : agregar seedFn seed dias n esc g = .ok rows) :
    ∀ f ∈ rows, f.costo = f.emisiones * 15 := by
  intro f hf
  cases n with
  | zero =>
    obtain ⟨msg, hmsg⟩ := (agregar_error_iff seedFn seed dias 0 esc g).mpr rfl
    rw [hmsg] at hok
    exact Except.noConfusion hok
  | succ m =>
    rw [agregar_eq_ok seedFn seed dias (m + 1) esc g (Nat.succ_le_succ (Nat.zero_le m))]
      at hok
    injection hok with hok
    subst hok
    obtain ⟨f₀, k, rfl⟩ := mem_corridas_flatten hf
    rcases hesc with rfl | rfl <;> simp [ajustarFila]

/-- Witness for C1 (amended): a concrete moderate-scenario aggregation. -/
theorem c1_witness :
    (((agregar (fun _ => constRNG 0) 1 1 1 Escenario.moderadas
        (constRNG 0)).toOption.getD []).all fun f =>
      decide (f.costo = f.emisiones * 15)) = true := by
  rw [List.all_eq_true]
  intro f hf
  rw [decide_eq_true_eq]
  exact c1_amended (fun _ => constRNG 0) 1 1 1 Escenario.moderadas (constRNG 0) _
    (Or.inl rfl) rfl f hf

/-- **C3, counterexample.** The claim says the stored category equals the
classifier applied to the stored (3-decimal-rounded) pre-scenario emission.
With a Transporte draw of `u = 99999/700000` the raw emission is `39.9999`,
classified `Bajo` (< 40), but the stored emission rounds to `40.000`, which
the classifier maps to `Medio`. -/
theorem c3_counterexample :
    ¬ ∀ f ∈ ((agregar (fun _ => constRNG (99999 / 700000)) 1 1 1 Escenario.base
        (constRNG 0)).toOption.getD []),
      f.categoria = clasificar f.emisiones := by
  intro h
  norm_num [agregar, corridas, corridaRows, simular_huella_carbono, generarTodas, generarDias,
    generarFila, uniform, actividades, ajustarFila, constRNG, rangoEmision,
    rangoReduccion, clasificar, roundTo, round_eq, Except.toOption] at h
  exact Categoria.noConfusion h

/-- Every row of `simular_huella_carbono` run on unit streams is produced by `generarFila`
on some unit stream. -/
theorem simular_unit {seedFn : ℕ → RNG} {g : RNG} (hsf : ∀ s, UnitStream (seedFn s))
    (hg : UnitStream g) (dias : ℕ) (sd : Option ℕ) :
    ∀ f ∈ (simular_huella_carbono seedFn dias sd g).1,
      ∃ a ∈ actividades, ∃ g', UnitStream g' ∧ f = (generarFila a g').1 := by
  cases sd with
  | none => exact fun f hf => mem_generarTodas hg hf
  | some s =>
    by_cases hs : s = 0
    · simp only [simular_huella_carbono, hs]
      exact fun f hf => mem_generarTodas hg (by simpa using hf)
    · simp only [simular_huella_carbono, hs]
      exact fun f hf => mem_generarTodas (hsf s) (by simpa [hs] using hf)

/-- **C3, amended.** The stored category is the classification
`{<40 Bajo, [40,90] Medio, >90 Alto}` of the row's *unrounded* pre-scenario
sampled emission — the value whose 3-decimal rounding is the stored
`emisiones` — not of the stored rounded value itself (the two differ only
when rounding crosses a class boundary). -/
theorem c3_amended (seedFn : ℕ → RNG) (dias : ℕ) (sd : Option ℕ) (g : RNG)
    (hsf : ∀ s, UnitStream (seedFn s)) (hg : UnitStream g) :
    ∀ f ∈ (simular_huella_carbono seedFn dias sd g).1,
      ∃ e : ℚ, f.emisiones = roundTo 3 e ∧ f.categoria = clasificar e := by
  intro f hf
  obtain ⟨a, _, g', _, rfl⟩ := simular_unit hsf hg dias sd f hf
  exact ⟨(uniform (rangoEmision a).1 (rangoEmision a).2 g').1, rfl, rfl⟩

/-- Witness for C3 (amended): the first row generated from a constant half
stream. -/
theorem c3_witness :
    ∃ e : ℚ,
      ((generarFila Actividad.transporte (constRNG (1 / 2))).1).emisiones
        = roundTo 3 e ∧
      ((generarFila Actividad.transporte (constRNG (1 / 2))).1).categoria
        = clasificar e :=
  c3_amended (fun _ => constRNG (1 / 2)) 1 none (constRNG (1 / 2))
    (fun _ _ => ⟨one_half_pos.le, one_half_lt_one⟩)
    (fun _ => ⟨one_half_pos.le, one_half_lt_one⟩)
    ((generarFila Actividad.transporte (constRNG (1 / 2))).1)
    (by simp [simular_huella_carbono, generarTodas, generarDias, actividades])

theorem uniform_bounds {a b : ℚ} (hab : a < b) {g : RNG} (hg : UnitStream g) :
    a ≤ (uniform a b g).1 ∧ (uniform a b g).1 < b := by
  obtain ⟨h0, h1⟩ := hg 0
  constructor
  · have : 0 ≤ (b - a) * g 0 := mul_nonneg (by linarith) h0
    simp only [uniform]
    linarith
  · have : (b - a) * g 0 < (b - a) * 1 := by
      exact mul_lt_mul_of_pos_left h1 (by linarith)
    simp only [uniform]
    linarith

theorem generarFila_emisiones_bounds (a : Actividad) {g : RNG} (hg : UnitStream g) :
    (rangoEmision a).1 ≤ ((generarFila a g).1).emisiones ∧
      ((generarFila a g).1).emisiones ≤ (rangoEmision a).2 := by
  have hlt : (rangoEmision a).1 < (rangoEmision a).2 := by
    cases a <;> norm_num [rangoEmision]
  have hb := uniform_bounds hlt hg
  have hfix1 : roundTo 3 (rangoEmision a).1 = (rangoEmision a).1 := by
    cases a <;> norm_num [rangoEmision, roundTo, round_eq]
  have hfix2 : roundTo 3 (rangoEmision a).2 = (rangoEmision a).2 := by
    cases a <;> norm_num [rangoEmision, roundTo, round_eq]
  constructor
  · have h := roundTo_mono 3 hb.1
    rw [hfix1] at h
    exact h
  · have h := roundTo_mono 3 hb.2.le
    rw [hfix2] at h
    exact h

theorem generarFila_reduccion_bounds (a : Actividad) {g : RNG} (hg : UnitStream g) :
    (rangoReduccion a).1 ≤ ((generarFila a g).1).reduccion ∧
      ((generarFila a g).1).reduccion ≤ (rangoReduccion a).2 := by
  have hlt : (rangoReduccion a).1 < (rangoReduccion a).2 := by
    cases a <;> norm_num [rangoReduccion]
  have hb := uniform_bounds hlt (hg.tail)
  have hfix1 : roundTo 2 (rangoReduccion a).1 = (rangoReduccion a).1 := by
    cases a <;> norm_num [rangoReduccion, roundTo, round_eq]
  have hfix2 : roundTo 2 (rangoReduccion a).2 = (rangoReduccion a).2 := by
    cases a <;> norm_num [rangoReduccion, roundTo, round_eq]
  constructor
  · have h := roundTo_mono 2 hb.1
    rw [hfix1] at h
    exact h
  · have h := roundTo_mono 2 hb.2.le
    rw [hfix2] at h
    exact h

/-- **C8, counterexample.** The claim puts every stored emission in the
half-open sampling interval ([30, 100) for Transporte).  Stored values are
rounded to 3 decimals, which can land exactly on the excluded upper
endpoint: with the unit draw `u = 9999999/10000000` the Transporte emission
is `99.9999993`, stored as `100.000 ∉ [30, 100)`. -/
theorem c8_counterexample :
    UnitStream (constRNG (9999999 / 10000000)) ∧
    ¬ ∀ f ∈ (simular_huella_carbono (fun _ => constRNG 0) 1 none
        (constRNG (9999999 / 10000000))).1,
      f.emisiones < (rangoEmision f.actividad).2 := by
  refine ⟨fun n => ⟨by norm_num [constRNG], by norm_num [constRNG]⟩, fun h => ?_⟩
  norm_num [simular_huella_carbono, generarTodas, generarDias, generarFila, uniform,
    actividades, constRNG, rangoEmision, rangoReduccion, clasificar,
    roundTo, round_eq] at h

/-- **C8, amended.** For every generated (pre-scenario) row, the stored
emission lies in the *closed* interval of its activity's sampling range
([30, 100] for Transporte, [50, 150] Energía, [10, 60] Residuos, [5, 30]
Agua) and the stored reduction potential in the closed reduction range
([20, 40], [30, 60], [10, 40], [5, 20] respectively): sampling is uniform on
the half-open range, but rounding (3 decimals for emission, 2 for
reduction) can reach the upper endpoint. -/
theorem c8_amended (seedFn : ℕ → RNG) (dias : ℕ) (sd : Option ℕ) (g : RNG)
    (hsf : ∀ s, UnitStream (seedFn s)) (hg : UnitStream g) :
    ∀ f ∈ (simular_huella_carbono seedFn dias sd g).1,
      (rangoEmision f.actividad).1 ≤ f.emisiones ∧
      f.emisiones ≤ (rangoEmision f.actividad).2 ∧
      (rangoReduccion f.actividad).1 ≤ f.reduccion ∧
      f.reduccion ≤ (rangoReduccion f.actividad).2 := by
  intro f hf
  obtain ⟨a, _, g', hu, rfl⟩ := simular_unit hsf hg dias sd f hf
  obtain ⟨he1, he2⟩ := generarFila_emisiones_bounds a hu
  obtain ⟨hr1, hr2⟩ := generarFila_reduccion_bounds a hu
  exact ⟨he1, he2, hr1, hr2⟩

/-- Witness for C8 (amended) on a constant half stream. -/
theorem c8_witness :
    (((simular_huella_carbono (fun _ => constRNG (1 / 2)) 2 (some 7) (constRNG 0)).1).all fun f =>
      decide ((rangoEmision f.actividad).1 ≤ f.emisiones ∧
        f.emisiones ≤ (rangoEmision f.actividad).2 ∧
        (rangoReduccion f.actividad).1 ≤ f.reduccion ∧
        f.reduccion ≤ (rangoReduccion f.actividad).2)) = true := by
  rw [List.all_eq_true]
  intro f hf
  rw [decide_eq_true_eq]
  exact c8_amended (fun _ => constRNG (1 / 2)) 2 (some 7) (constRNG 0)
    (fun _ _ => ⟨one_half_pos.le, one_half_lt_one⟩)
    (fun _ => ⟨le_refl 0, zero_lt_one⟩) f hf

/-! ## Run extraction, for the seed-shift relation -/

theorem filter_flatten {α : Type} (p : α → Bool) (l : List (List α)) :
    (l.flatten).filter p = (l.map (List.filter p)).flatten := by
  induction l with
  | nil => rfl
  | cons a t ih => simp [List.filter_append, ih]

theorem mem_bloque_corrida {seedFn : ℕ → RNG} {seed dias : ℕ} {esc : Escenario}
    {k : ℕ} {f : FilaCorrida} (hf : f ∈ bloque seedFn seed dias esc k) :
    f.corrida = k + 1 := by
  unfold bloque at hf
  obtain ⟨f₀, _, rfl⟩ := List.mem_map.mp hf
  rfl

theorem bloque_filter (seedFn : ℕ → RNG) (seed dias : ℕ) (esc : Escenario)
    (k t : ℕ) :
    (bloque seedFn seed dias esc k).filter (fun f => f.corrida == t)
      = if k + 1 = t then bloque seedFn seed dias esc k else [] := by
  by_cases h : k + 1 = t
  · rw [if_pos h]
    apply List.filter_eq_self.mpr
    intro f hf
    simp [mem_bloque_corrida hf, h]
  · rw [if_neg h]
    apply List.filter_eq_nil_iff.mpr
    intro f hf
    simp [mem_bloque_corrida hf, h]

theorem flatten_map_single {α : Type} (h : ℕ → List α) (n r : ℕ) (hr : r < n)
    (hz : ∀ i, i < n → i ≠ r → h i = []) :
    (((List.range n).map h).flatten) = h r := by
  induction n with
  | zero => omega
  | succ m ih =>
    rw [List.range_succ]
    by_cases hrm : r = m
    · subst hrm
      have hnil : (((List.range r).map h).flatten) = [] := by
        apply List.flatten_eq_nil_iff.mpr
        intro s hs
        obtain ⟨i, hi, rfl⟩ := List.mem_map.mp hs
        exact hz i (by simp at hi; omega) (by simp at hi; omega)
      simp [hnil]
    · have hm : h m = [] := hz m (by omega) (by omega)
      simp [ih (by omega) (fun i hi hir => hz i (by omega) hir), hm]

theorem bloque_map_toFila (seedFn : ℕ → RNG) (seed dias : ℕ) (esc : Escenario)
    (k : ℕ) :
    (bloque seedFn seed dias esc k).map FilaCorrida.toFila
      = (generarTodas actividades dias (seedFn (seed + k))).1.map (ajustarFila esc) := by
  unfold bloque
  rw [List.map_map]
  exact List.map_id' _

/-- **C10.** With a non-zero base seed `b`, the rows of run `r + 1` of an
aggregation equal — apart from the `Corrida` tag — the rows of run `r` of an
aggregation with base seed `b + 1` and the same days and scenario, because
run `r` reseeds the generator with `b + (r - 1)`. -/
theorem c10_seed_shift (seedFn : ℕ → RNG) (b dias n r : ℕ) (esc : Escenario)
    (g₁ g₂ : RNG) (hb : b ≠ 0) (hr : 1 ≤ r) (hrn : r + 1 ≤ n) :
    ∃ rows₁ rows₂,
      agregar seedFn b dias n esc g₁ = .ok rows₁ ∧
      agregar seedFn (b + 1) dias n esc g₂ = .ok rows₂ ∧
      (rows₁.filter (fun f => f.corrida == r + 1)).map FilaCorrida.toFila
        = (rows₂.filter (fun f => f.corrida == r)).map FilaCorrida.toFila := by
  have hn : 1 ≤ n := by omega
  refine ⟨_, _, agregar_eq_ok seedFn b dias n esc g₁ hn,
    agregar_eq_ok seedFn (b + 1) dias n esc g₂ hn, ?_⟩
  rw [corridas_seeded seedFn dias esc n 0 g₁ hb,
    corridas_seeded seedFn dias esc n 0 g₂ (by omega : b + 1 ≠ 0)]
  simp only [Nat.zero_add]
  rw [filter_flatten, filter_flatten, List.map_map, List.map_map]
  have h₁ : (((List.range n).map
      ((List.filter fun f => f.corrida == r + 1) ∘ fun i => bloque seedFn b dias esc i)).flatten)
      = bloque seedFn b dias esc r := by
    have he : ((List.filter fun f => f.corrida == r + 1) ∘ fun i => bloque seedFn b dias esc i)
        = fun i => if i + 1 = r + 1 then bloque seedFn b dias esc i else [] := by
      funext i
      exact bloque_filter seedFn b dias esc i (r + 1)
    rw [he, flatten_map_single
      (fun i => if i + 1 = r + 1 then bloque seedFn b dias esc i else [])
      n r (by omega) (fun i _ hir => if_neg (by omega))]
    show (if r + 1 = r + 1 then bloque seedFn b dias esc r else [])
      = bloque seedFn b dias esc r
    rw [if_pos rfl]
  obtain ⟨r₀, rfl⟩ : ∃ r₀, r = r₀ + 1 := ⟨r - 1, by omega⟩
  have h₂ : (((List.range n).map
      ((List.filter fun f => f.corrida == r₀ + 1) ∘ fun i => bloque seedFn (b + 1) dias esc i)).flatten)
      = bloque seedFn (b + 1) dias esc r₀ := by
    have he : ((List.filter fun f => f.corrida == r₀ + 1) ∘ fun i => bloque seedFn (b + 1) dias esc i)
        = fun i => if i + 1 = r₀ + 1 then bloque seedFn (b + 1) dias esc i else [] := by
      funext i
      exact bloque_filter seedFn (b + 1) dias esc i (r₀ + 1)
    rw [he, flatten_map_single
      (fun i => if i + 1 = r₀ + 1 then bloque seedFn (b + 1) dias esc i else [])
      n r₀ (by omega) (fun i _ hir => if_neg (by omega))]
    show (if r₀ + 1 = r₀ + 1 then bloque seedFn (b + 1) dias esc r₀ else [])
      = bloque seedFn (b + 1) dias esc r₀
    rw [if_pos rfl]
  rw [h₁, h₂, bloque_map_toFila, bloque_map_toFila,
    show b + (r₀ + 1) = b + 1 + r₀ by omega]

/-- Witness for C10: base seed 1, two runs, comparing run 2 with run 1 of
base seed 2. -/
theorem c10_witness :
    ∃ rows₁ rows₂,
      agregar (fun _ => constRNG 0) 1 1 2 Escenario.base (constRNG 0) = .ok rows₁ ∧
      agregar (fun _ => constRNG 0) 2 1 2 Escenario.base (constRNG (1 / 2)) = .ok rows₂ ∧
      (rows₁.filter (fun f => f.corrida == 2)).map FilaCorrida.toFila
        = (rows₂.filter (fun f => f.corrida == 1)).map FilaCorrida.toFila :=
  c10_seed_shift (fun _ => constRNG 0) 1 1 2 1 Escenario.base (constRNG 0)
    (constRNG (1 / 2)) (by decide) (by decide) (by decide)

end AppCarbono
